import Mathlib

/-!
# Verification of the request batcher in `src/hosting/app.py`

Shallow embedding of the two FastAPI endpoints `generate_batch` and `chat`.
The external inference engine (tokenizer + `model.generate` + decode) is an
opaque parameter: for the batch path a function from an ordered list of prompt
strings to either a list of decoded output strings or a raised exception
(modelled as `Except String (List String)`), and for the single-chat path a
function on one prompt string.

Python control flow is modelled explicitly:
* each handler body runs inside `try: ... except Exception as e:
  raise HTTPException(status_code=500, detail=str(e))`, so every exception
  raised in the body — including the `HTTPException(400, ...)` the body itself
  raises for malformed input — is re-raised as a 500 with `str(e)` as detail;
* Starlette's `HTTPException.__str__` renders as `"<status>: <detail>"`;
* Python string truthiness (`not s` iff `s == ""`) and `s or t` are modelled
  literally;
* the response dicts built by the handler (`{"chat_id": ..., "error": ...}`,
  `{"placeholder": True, "chat_id": ...}`, `{"chat_id": ..., "response": ...}`)
  are the three constructors of `Entry`;
* the reassembly loop's indexed accesses `valid_indices[j]` and
  `responses[response_index]` can raise `IndexError`, modelled by `Option`.

Each handler is embedded as a `*_run` function that also returns the trace of
engine invocations (the list of argument lists the engine was called with), so
that "the engine is invoked exactly once / not at all" is a statement about
the same definition the functional claims use.
-/

namespace LlmQnaApi

/-- Pydantic model `ChatRequest`: `chat_id : str`, `system_prompt : str | None = ""`,
`user_prompt : str`. -/
structure ChatRequest where
  chat_id : String
  system_prompt : Option String
  user_prompt : String
deriving Repr, DecidableEq

/-- Python `x or ""` on an optional string: `None` is falsy, and the only falsy
string is `""`, which `or` maps to `""` anyway; so this is `Option.getD "" `. -/
def pyOr : Option String → String
  | none => ""
  | some s => s

/-- Python `s.strip() == ""`: a string strips to the empty string exactly when
every character is whitespace. -/
def pyBlank (s : String) : Bool :=
  s.data.all Char.isWhitespace

/-- One element of the handler's `responses` list: the three dict shapes the
code builds — `{"chat_id", "error"}`, `{"placeholder": True, "chat_id"}`,
`{"chat_id", "response"}`. -/
inductive Entry where
  | error (chat_id : String) (msg : String)
  | placeholder (chat_id : String)
  | response (chat_id : String) (text : String)
deriving Repr, DecidableEq

/-- The `"chat_id"` field each response dict carries. -/
def Entry.chatId : Entry → String
  | .error c _ => c
  | .placeholder c => c
  | .response c _ => c

def Entry.isError : Entry → Bool
  | .error _ _ => true
  | _ => false

def Entry.isPlaceholder : Entry → Bool
  | .placeholder _ => true
  | _ => false

def Entry.isSuccess : Entry → Bool
  | .response _ _ => true
  | _ => false

/-- The three lists the first pass of `generate_batch` accumulates. -/
structure PassState where
  responses : List Entry
  valid_prompts : List String
  valid_indices : List Nat
deriving Repr, DecidableEq

/-- One iteration of the first (validation) loop of `generate_batch`, at
enumeration index `i`:

```python
if not q.chat_id or q.chat_id.strip() == "":
    responses.append({"chat_id": q.chat_id or f"query_{i}", "error": "chat_id is required and cannot be empty"})
elif not q.user_prompt or q.user_prompt.strip() == "":
    responses.append({"chat_id": q.chat_id, "error": "user_prompt is required and cannot be empty"})
else:
    valid_prompts.append((q.system_prompt or "") + "\n" + q.user_prompt)
    valid_indices.append(len(responses))
    responses.append({"placeholder": True, "chat_id": q.chat_id})
``` -/
def firstPassStep (s : PassState) (i : Nat) (q : ChatRequest) : PassState :=
  if q.chat_id = "" ∨ pyBlank q.chat_id then
    { s with responses := s.responses ++
        [.error (if q.chat_id = "" then "query_" ++ toString i else q.chat_id)
          "chat_id is required and cannot be empty"] }
  else if q.user_prompt = "" ∨ pyBlank q.user_prompt then
    { s with responses := s.responses ++
        [.error q.chat_id "user_prompt is required and cannot be empty"] }
  else
    { responses := s.responses ++ [.placeholder q.chat_id]
      valid_prompts := s.valid_prompts ++ [pyOr q.system_prompt ++ "\n" ++ q.user_prompt]
      valid_indices := s.valid_indices ++ [s.responses.length] }

/-- `for i, q in enumerate(req.queries): ...` starting at index `i`. -/
def firstPassAux (i : Nat) (s : PassState) : List ChatRequest → PassState
  | [] => s
  | q :: qs => firstPassAux (i + 1) (firstPassStep s i q) qs

/-- The whole first pass of `generate_batch` over the queries list. -/
def firstPass (queries : List ChatRequest) : PassState :=
  firstPassAux 0 ⟨[], [], []⟩ queries

/-- The reassembly loop:

```python
for j, output in enumerate(outputs):
    text = tokenizer.decode(output, skip_special_tokens=True)
    response_index = valid_indices[j]
    responses[response_index] = {"chat_id": responses[response_index]["chat_id"], "response": text}
```

`none` models an `IndexError` (when `outputs` is longer than `valid_indices`;
the guarded read `responses[response_index]?` keeps the subsequent `List.set`
faithful to Python's in-range item assignment). -/
def reassemble : List Entry → List Nat → List String → Option (List Entry)
  | responses, _, [] => some responses
  | _, [], _ :: _ => none
  | responses, idx :: idxs, out :: outs =>
    match responses[idx]? with
    | none => none
    | some entry =>
      reassemble (responses.set idx (.response entry.chatId out)) idxs outs

/-- An exception raised inside a handler body: either an explicit
`HTTPException(status, detail)` or any other runtime exception with message
`msg`. -/
inductive Exc where
  | http (status : Nat) (detail : String)
  | runtime (msg : String)
deriving Repr, DecidableEq

/-- Python `str(e)`: Starlette's `HTTPException.__str__` is
`f"{self.status_code}: {self.detail}"`; a plain exception renders its message. -/
def strOfExc : Exc → String
  | .http s d => toString s ++ ": " ++ d
  | .runtime m => m

/-- An HTTP outcome of `generate_batch`: a 200 with the `responses` list, or an
error status with a detail string. -/
inductive HResp where
  | ok (responses : List Entry)
  | err (status : Nat) (detail : String)
deriving Repr, DecidableEq

/-- The `try:` body of `generate_batch` together with the trace of inference
engine invocations (each element is the prompt list of one invocation). -/
def generate_batch_run (engine : List String → Except String (List String))
    (queries : List ChatRequest) : Except Exc (List Entry) × List (List String) :=
  if queries.isEmpty then
    (.error (.http 400 "queries array required and must be non-empty"), [])
  else
    let s := firstPass queries
    if s.valid_prompts.isEmpty then
      (.ok s.responses, [])
    else
      match engine s.valid_prompts with
      | .error msg => (.error (.runtime msg), [s.valid_prompts])
      | .ok outs =>
        match reassemble s.responses s.valid_indices outs with
        | none => (.error (.runtime "list index out of range"), [s.valid_prompts])
        | some rs => (.ok rs, [s.valid_prompts])

/-- The `POST /generate_batch` handler: the body wrapped in
`except Exception as e: raise HTTPException(status_code=500, detail=str(e))`. -/
def generate_batch (engine : List String → Except String (List String))
    (queries : List ChatRequest) : HResp :=
  match (generate_batch_run engine queries).1 with
  | .ok rs => .ok rs
  | .error e => .err 500 (strOfExc e)

/-- An HTTP outcome of `chat`: a 200 with `{chat_id, response}`, or an error
status with a detail string. -/
inductive ChatHResp where
  | ok (chat_id : String) (response : String)
  | err (status : Nat) (detail : String)
deriving Repr, DecidableEq

/-- The `try:` body of `chat` with the trace of engine invocations:

```python
if not req.chat_id or not req.user_prompt:
    raise HTTPException(status_code=400, detail="chat_id and user_prompt are required")
prompt = (req.system_prompt or "") + "\n" + req.user_prompt
...
return {"chat_id": req.chat_id, "response": text}
``` -/
def chat_run (engine : String → Except String String) (req : ChatRequest) :
    Except Exc (String × String) × List String :=
  if req.chat_id = "" ∨ req.user_prompt = "" then
    (.error (.http 400 "chat_id and user_prompt are required"), [])
  else
    let prompt := pyOr req.system_prompt ++ "\n" ++ req.user_prompt
    match engine prompt with
    | .error msg => (.error (.runtime msg), [prompt])
    | .ok text => (.ok (req.chat_id, text), [prompt])

/-- The `POST /chat` handler with the same blanket `except Exception` wrapper. -/
def chat (engine : String → Except String String) (req : ChatRequest) : ChatHResp :=
  match (chat_run engine req).1 with
  | .ok (cid, text) => .ok cid text
  | .error e => .err 500 (strOfExc e)

/-! ## Specification-side definitions

These restate, per item, what the spec says the validation pass produces; the
theorems below relate them to `firstPass`/`generate_batch`. -/

/-- A request is valid when both `chat_id` and `user_prompt` are non-blank
after trimming whitespace. -/
def isValid (q : ChatRequest) : Bool :=
  !(pyBlank q.chat_id) && !(pyBlank q.user_prompt)

/-- The `PromptText` of a request: the system prompt (empty when absent)
concatenated with a newline and the user prompt. -/
def promptText (q : ChatRequest) : String :=
  pyOr q.system_prompt ++ "\n" ++ q.user_prompt

/-- The ordered list of `PromptText`s of the valid requests. -/
def validPrompts (qs : List ChatRequest) : List String :=
  (qs.filter isValid).map promptText

/-- The entry the validation pass leaves at position `i` for request `q`:
the specified error result for an invalid request, a placeholder carrying the
`chat_id` for a valid one. -/
def specEntry (i : Nat) (q : ChatRequest) : Entry :=
  if pyBlank q.chat_id then
    .error (if q.chat_id = "" then "query_" ++ toString i else q.chat_id)
      "chat_id is required and cannot be empty"
  else if pyBlank q.user_prompt then
    .error q.chat_id "user_prompt is required and cannot be empty"
  else
    .placeholder q.chat_id

/-- The `responses` list after the validation pass, positions numbered
from `i`. -/
def specResponses : Nat → List ChatRequest → List Entry
  | _, [] => []
  | i, q :: qs => specEntry i q :: specResponses (i + 1) qs

/-- The positions (numbered from `i`) of the valid requests, in order. -/
def specIndices : Nat → List ChatRequest → List Nat
  | _, [] => []
  | i, q :: qs =>
    if isValid q then i :: specIndices (i + 1) qs else specIndices (i + 1) qs

/-- The fully reassembled result list when the engine returned `outs` (one
output per valid request, consumed in order); error positions keep their
validation-pass entry. -/
def specFinal : Nat → List ChatRequest → List String → List Entry
  | _, [], _ => []
  | i, q :: qs, outs =>
    if isValid q then
      match outs with
      | [] => []
      | out :: outs' => .response q.chat_id out :: specFinal (i + 1) qs outs'
    else
      specEntry i q :: specFinal (i + 1) qs outs

/-! ## Lemmas about the validation pass -/

theorem pyBlank_empty : pyBlank "" = true := rfl

theorem isValid_iff {q : ChatRequest} :
    isValid q = true ↔ pyBlank q.chat_id = false ∧ pyBlank q.user_prompt = false := by
  simp [isValid]

theorem ne_empty_of_pyBlank_eq_false {s : String} (h : pyBlank s = false) : s ≠ "" := by
  intro he
  rw [he, pyBlank_empty] at h
  simp at h

theorem blank_cond_iff (s : String) : (s = "" ∨ pyBlank s = true) ↔ pyBlank s = true := by
  constructor
  · rintro (rfl | h)
    · exact pyBlank_empty
    · exact h
  · exact Or.inr

/-- The step of the validation loop on a valid request. -/
theorem firstPassStep_valid (s : PassState) (i : Nat) (q : ChatRequest)
    (h : isValid q = true) :
    firstPassStep s i q =
      { responses := s.responses ++ [.placeholder q.chat_id]
        valid_prompts := s.valid_prompts ++ [promptText q]
        valid_indices := s.valid_indices ++ [s.responses.length] } := by
  obtain ⟨h1, h2⟩ := isValid_iff.mp h
  simp [firstPassStep, promptText, h1, h2,
    ne_empty_of_pyBlank_eq_false h1, ne_empty_of_pyBlank_eq_false h2]

/-- The step of the validation loop on an invalid request appends exactly the
specified error entry. -/
theorem firstPassStep_invalid (s : PassState) (i : Nat) (q : ChatRequest)
    (h : isValid q = false) :
    firstPassStep s i q = { s with responses := s.responses ++ [specEntry i q] } := by
  by_cases h1 : pyBlank q.chat_id = true
  · simp [firstPassStep, specEntry, h1]
  · rw [Bool.not_eq_true] at h1
    by_cases h2 : pyBlank q.user_prompt = true
    · simp [firstPassStep, specEntry, h1, h2, ne_empty_of_pyBlank_eq_false h1]
    · rw [Bool.not_eq_true] at h2
      have hv := isValid_iff.mpr ⟨h1, h2⟩
      rw [h] at hv
      simp at hv

/-- Both branches of the loop body append exactly one entry to `responses`. -/
theorem firstPassStep_responses_length (s : PassState) (i : Nat) (q : ChatRequest) :
    (firstPassStep s i q).responses.length = s.responses.length + 1 := by
  cases h : isValid q
  · rw [firstPassStep_invalid s i q h]
    simp
  · rw [firstPassStep_valid s i q h]
    simp

/-- On a valid request the validation pass records a placeholder. -/
theorem specEntry_valid_eq {q : ChatRequest} (h : isValid q = true) (i : Nat) :
    specEntry i q = .placeholder q.chat_id := by
  obtain ⟨h1, h2⟩ := isValid_iff.mp h
  simp [specEntry, h1, h2]

/-- Characterization of the validation loop from an arbitrary accumulator whose
`responses` length matches the enumeration index. -/
theorem firstPassAux_spec (qs : List ChatRequest) :
    ∀ (i : Nat) (s : PassState), s.responses.length = i →
      firstPassAux i s qs =
        ⟨s.responses ++ specResponses i qs,
         s.valid_prompts ++ validPrompts qs,
         s.valid_indices ++ specIndices i qs⟩ := by
  induction qs with
  | nil => intro i s _; simp [firstPassAux, specResponses, validPrompts, specIndices]
  | cons q qs ih =>
    intro i s hs
    have hlen : (firstPassStep s i q).responses.length = i + 1 := by
      rw [firstPassStep_responses_length, hs]
    rw [firstPassAux, ih (i + 1) _ hlen]
    cases h : isValid q
    · rw [firstPassStep_invalid s i q h]
      simp [specResponses, validPrompts, specIndices, h, List.filter_cons]
    · rw [firstPassStep_valid s i q h]
      simp [specResponses, validPrompts, specIndices, h, List.filter_cons,
        specEntry_valid_eq h, hs]

/-- The validation pass produces exactly the per-position spec entries, the
`PromptText`s of the valid requests in order, and the positions of the valid
requests in order. -/
theorem firstPass_eq (qs : List ChatRequest) :
    firstPass qs = ⟨specResponses 0 qs, validPrompts qs, specIndices 0 qs⟩ := by
  rw [firstPass, firstPassAux_spec qs 0 ⟨[], [], []⟩ rfl]
  simp

/-! ## Lemmas about reassembly -/

theorem specResponses_length (qs : List ChatRequest) :
    ∀ i, (specResponses i qs).length = qs.length := by
  induction qs with
  | nil => intro i; rfl
  | cons q qs ih => intro i; simp [specResponses, ih]

theorem specIndices_length (qs : List ChatRequest) :
    ∀ i, (specIndices i qs).length = (qs.filter isValid).length := by
  induction qs with
  | nil => intro i; rfl
  | cons q qs ih =>
    intro i
    cases h : isValid q <;> simp [specIndices, List.filter_cons, h, ih]

theorem validPrompts_length (qs : List ChatRequest) :
    (validPrompts qs).length = (qs.filter isValid).length := by
  simp [validPrompts]

/-- Shifting the starting position of `specIndices` by one shifts every
recorded index by one. -/
theorem specIndices_succ (qs : List ChatRequest) :
    ∀ i, specIndices (i + 1) qs = (specIndices i qs).map (· + 1) := by
  induction qs with
  | nil => intro i; rfl
  | cons q qs ih =>
    intro i
    cases h : isValid q <;> simp [specIndices, h, ih (i + 1)]

/-- Reassembly never changes the length of the `responses` list. -/
theorem reassemble_length :
    ∀ (outs : List String) (idxs : List Nat) (responses rs : List Entry),
      reassemble responses idxs outs = some rs → rs.length = responses.length := by
  intro outs
  induction outs with
  | nil =>
    intro idxs responses rs h
    cases idxs <;> · rw [reassemble] at h; cases h; rfl
  | cons out outs ih =>
    intro idxs responses rs h
    cases idxs with
    | nil => cases h
    | cons idx idxs =>
      rw [reassemble] at h
      cases he : responses[idx]? with
      | none => rw [he] at h; cases h
      | some entry =>
        rw [he] at h
        have := ih idxs _ rs h
        simpa using this

/-- Writing through indices that are all shifted past a fixed head leaves the
head untouched. -/
theorem reassemble_cons_succ (e : Entry) :
    ∀ (outs : List String) (idxs : List Nat) (rest : List Entry),
      reassemble (e :: rest) (idxs.map (· + 1)) outs =
        (reassemble rest idxs outs).map (fun rs => e :: rs) := by
  intro outs
  induction outs with
  | nil => intro idxs rest; cases idxs <;> rfl
  | cons out outs ih =>
    intro idxs rest
    cases idxs with
    | nil => rfl
    | cons idx idxs =>
      rw [List.map_cons, reassemble, reassemble]
      cases he : rest[idx]? with
      | none => simp [he]
      | some entry => simp [he, ih]

/-- Reassembling the validation-pass output with one engine output per valid
request succeeds and produces exactly the spec-level final list. -/
theorem reassemble_specFinal (qs : List ChatRequest) :
    ∀ (i : Nat) (outs : List String), outs.length = (qs.filter isValid).length →
      reassemble (specResponses i qs) (specIndices 0 qs) outs =
        some (specFinal i qs outs) := by
  induction qs with
  | nil =>
    intro i outs h
    simp only [List.filter_nil, List.length_nil, List.length_eq_zero] at h
    subst h
    rfl
  | cons q qs ih =>
    intro i outs h
    cases hv : isValid q with
    | true =>
      rw [List.filter_cons_of_pos (by simp [hv])] at h
      cases outs with
      | nil => simp at h
      | cons out outs =>
        simp only [List.length_cons, Nat.succ.injEq] at h
        rw [specResponses, specIndices, if_pos hv, specEntry_valid_eq hv, reassemble]
        simp only [List.getElem?_cons_zero, List.set_cons_zero, Entry.chatId]
        rw [specIndices_succ qs 0, reassemble_cons_succ, ih (i + 1) outs h]
        simp [specFinal, hv]
    | false =>
      rw [List.filter_cons_of_neg (by simp [hv])] at h
      rw [specResponses, specIndices, if_neg (by simp [hv]), specIndices_succ qs 0,
        reassemble_cons_succ, ih (i + 1) outs h]
      simp [specFinal, hv]

/-- The entry recorded for an invalid request is an error entry. -/
theorem specEntry_invalid {q : ChatRequest} (h : isValid q = false) (i : Nat) :
    (specEntry i q).isError = true ∧ (specEntry i q).isSuccess = false ∧
      (specEntry i q).isPlaceholder = false := by
  by_cases h1 : pyBlank q.chat_id = true
  · simp [specEntry, h1, Entry.isError, Entry.isSuccess, Entry.isPlaceholder]
  · rw [Bool.not_eq_true] at h1
    by_cases h2 : pyBlank q.user_prompt = true
    · simp [specEntry, h1, h2, Entry.isError, Entry.isSuccess, Entry.isPlaceholder]
    · rw [Bool.not_eq_true] at h2
      have hv := isValid_iff.mpr ⟨h1, h2⟩
      rw [h] at hv
      simp at hv

theorem specFinal_length (qs : List ChatRequest) :
    ∀ (i : Nat) (outs : List String), outs.length = (qs.filter isValid).length →
      (specFinal i qs outs).length = qs.length := by
  induction qs with
  | nil => intro i outs _; rfl
  | cons q qs ih =>
    intro i outs h
    cases hv : isValid q with
    | true =>
      rw [List.filter_cons_of_pos (by simp [hv])] at h
      cases outs with
      | nil => simp at h
      | cons out outs =>
        simp only [List.length_cons, Nat.succ.injEq] at h
        simp [specFinal, hv, ih (i + 1) outs h]
    | false =>
      rw [List.filter_cons_of_neg (by simp [hv])] at h
      simp [specFinal, hv, ih (i + 1) outs h]

/-- Pointwise characterization of the final list: position `p` holds a success
entry exactly when request `p` is valid, it is never a placeholder, and it
carries the `chat_id` the validation pass recorded for that position. -/
theorem specFinal_getElem (qs : List ChatRequest) :
    ∀ (i : Nat) (outs : List String) (p : Nat),
      outs.length = (qs.filter isValid).length → ∀ hp : p < qs.length,
        ∃ e, (specFinal i qs outs)[p]? = some e ∧
          e.isSuccess = isValid qs[p] ∧
          e.chatId = (specEntry (i + p) qs[p]).chatId ∧
          e.isPlaceholder = false := by
  induction qs with
  | nil => intro i outs p _ hp; exact absurd hp (by simp)
  | cons q qs ih =>
    intro i outs p h hp
    cases hv : isValid q with
    | true =>
      rw [List.filter_cons_of_pos (by simp [hv])] at h
      cases outs with
      | nil => simp at h
      | cons out outs =>
        simp only [List.length_cons, Nat.succ.injEq] at h
        cases p with
        | zero =>
          refine ⟨.response q.chat_id out, ?_, ?_, ?_, rfl⟩
          · simp [specFinal, hv]
          · simp [Entry.isSuccess, hv]
          · simp [Entry.chatId, specEntry_valid_eq hv]
        | succ p =>
          have hp' : p < qs.length := by simpa using hp
          obtain ⟨e, he, hs, hc, hpl⟩ := ih (i + 1) outs p h hp'
          refine ⟨e, ?_, ?_, ?_, hpl⟩
          · simp [specFinal, hv, he]
          · simpa using hs
          · have harith : i + (p + 1) = (i + 1) + p := by omega
            simpa [harith] using hc
    | false =>
      rw [List.filter_cons_of_neg (by simp [hv])] at h
      cases p with
      | zero =>
        refine ⟨specEntry i q, ?_, ?_, ?_, (specEntry_invalid hv i).2.2⟩
        · simp [specFinal, hv]
        · simp [hv, (specEntry_invalid hv i).2.1]
        · simp
      | succ p =>
        have hp' : p < qs.length := by simpa using hp
        obtain ⟨e, he, hs, hc, hpl⟩ := ih (i + 1) outs p h hp'
        refine ⟨e, ?_, ?_, ?_, hpl⟩
        · simp [specFinal, hv, he]
        · simpa using hs
        · have harith : i + (p + 1) = (i + 1) + p := by omega
          simpa [harith] using hc

/-- Pointwise characterization of the validation-pass `responses` list. -/
theorem specResponses_getElem (qs : List ChatRequest) :
    ∀ (i : Nat) (p : Nat), ∀ hp : p < qs.length,
      (specResponses i qs)[p]? = some (specEntry (i + p) qs[p]) := by
  induction qs with
  | nil => intro i p hp; exact absurd hp (by simp)
  | cons q qs ih =>
    intro i p hp
    cases p with
    | zero => simp [specResponses]
    | succ p =>
      have hp' : p < qs.length := by simpa using hp
      have harith : i + (p + 1) = (i + 1) + p := by omega
      simpa [specResponses, harith] using ih (i + 1) p hp'

/-- The prompt list is empty exactly when no request is valid. -/
theorem validPrompts_eq_nil_iff (qs : List ChatRequest) :
    validPrompts qs = [] ↔ ∀ q ∈ qs, isValid q = false := by
  rw [validPrompts, List.map_eq_nil_iff, List.filter_eq_nil_iff]
  simp

theorem pyOr_eq_getD (o : Option String) : pyOr o = o.getD "" := by
  cases o <;> rfl

theorem Entry.isPlaceholder_eq_false_of_isError {r : Entry} (h : r.isError = true) :
    r.isPlaceholder = false := by
  cases r <;> simp_all [Entry.isError, Entry.isPlaceholder]

/-- All entries of the validation pass over an all-invalid list are errors. -/
theorem specResponses_all_error (qs : List ChatRequest) :
    ∀ i, (∀ q ∈ qs, isValid q = false) →
      ∀ r ∈ specResponses i qs, r.isError = true := by
  induction qs with
  | nil => intro i _ r hr; simp [specResponses] at hr
  | cons q qs ih =>
    intro i hall r hr
    rw [specResponses] at hr
    rcases List.mem_cons.mp hr with rfl | hr
    · exact (specEntry_invalid (hall q (by simp)) i).1
    · exact ih (i + 1) (fun q' hq' => hall q' (by simp [hq'])) r hr

/-- When one output was consumed per valid request, the final list holds no
placeholder: every entry is an error or a success. -/
theorem specFinal_entries (qs : List ChatRequest) :
    ∀ (i : Nat) (outs : List String), outs.length = (qs.filter isValid).length →
      ∀ r ∈ specFinal i qs outs,
        r.isPlaceholder = false ∧ (r.isError = true ∨ r.isSuccess = true) := by
  induction qs with
  | nil => intro i outs _ r hr; simp [specFinal] at hr
  | cons q qs ih =>
    intro i outs h r hr
    cases hv : isValid q with
    | true =>
      rw [List.filter_cons_of_pos (by simp [hv])] at h
      cases outs with
      | nil => simp at h
      | cons out outs =>
        simp only [List.length_cons, Nat.succ.injEq] at h
        simp only [specFinal, hv, if_true] at hr
        rcases List.mem_cons.mp hr with rfl | hr
        · exact ⟨rfl, Or.inr rfl⟩
        · exact ih (i + 1) outs h r hr
    | false =>
      rw [List.filter_cons_of_neg (by simp [hv])] at h
      simp only [specFinal, hv, if_false] at hr
      rcases List.mem_cons.mp hr with rfl | hr
      · exact ⟨(specEntry_invalid hv i).2.2, Or.inl (specEntry_invalid hv i).1⟩
      · exact ih (i + 1) outs h r hr

/-- `generate_batch_run` written over the spec-level description of the
validation pass. -/
theorem generate_batch_run_eq (engine : List String → Except String (List String))
    (qs : List ChatRequest) :
    generate_batch_run engine qs =
      if qs.isEmpty then
        (.error (.http 400 "queries array required and must be non-empty"), [])
      else if (validPrompts qs).isEmpty then
        (.ok (specResponses 0 qs), [])
      else
        match engine (validPrompts qs) with
        | .error msg => (.error (.runtime msg), [validPrompts qs])
        | .ok outs =>
          match reassemble (specResponses 0 qs) (specIndices 0 qs) outs with
          | none => (.error (.runtime "list index out of range"), [validPrompts qs])
          | some rs => (.ok rs, [validPrompts qs]) := by
  rw [generate_batch_run, firstPass_eq]

/-- Any 200 outcome of `generate_batch` is either the untouched validation-pass
output (no valid request) or a successfully reassembled list. -/
theorem generate_batch_ok_cases (engine : List String → Except String (List String))
    (qs : List ChatRequest) (rs : List Entry)
    (hok : generate_batch engine qs = .ok rs) :
    (validPrompts qs = [] ∧ rs = specResponses 0 qs) ∨
    (∃ outs, engine (validPrompts qs) = .ok outs ∧
      reassemble (specResponses 0 qs) (specIndices 0 qs) outs = some rs) := by
  rw [generate_batch, generate_batch_run_eq] at hok
  by_cases hq : qs.isEmpty
  · rw [if_pos hq] at hok
    cases hok
  · rw [if_neg hq] at hok
    by_cases hvp : (validPrompts qs).isEmpty
    · rw [if_pos hvp] at hok
      cases hok
      exact Or.inl ⟨List.isEmpty_iff.mp hvp, rfl⟩
    · rw [if_neg hvp] at hok
      cases heng : engine (validPrompts qs) with
      | error msg => rw [heng] at hok; simp at hok
      | ok outs =>
        rw [heng] at hok
        cases hre : reassemble (specResponses 0 qs) (specIndices 0 qs) outs with
        | none => simp only [hre] at hok; cases hok
        | some rs' =>
          simp only [hre] at hok
          cases hok
          exact Or.inr ⟨outs, rfl, hre⟩

/-- The single-chat body records exactly one engine invocation, on the
concatenated prompt, whenever the truthiness validation passes. -/
theorem chat_run_trace_eq (engine : String → Except String String)
    (req : ChatRequest) (h1 : req.chat_id ≠ "") (h2 : req.user_prompt ≠ "") :
    (chat_run engine req).2 = [pyOr req.system_prompt ++ "\n" ++ req.user_prompt] := by
  rw [chat_run, if_neg (by tauto)]
  cases heng : engine (pyOr req.system_prompt ++ "\n" ++ req.user_prompt) <;>
    simp [heng]

/-! ## Claims -/

/-- A concrete engine for witnesses: maps each prompt `p` to `"out:" ++ p`. -/
def echoEngine : List String → Except String (List String) :=
  fun ps => .ok (ps.map (fun p => "out:" ++ p))

/-- **C1**: whenever the batch operation returns a 200 result list — under the
engine contract of exactly one output per submitted prompt, but for an
arbitrary engine, i.e. regardless of how the valid sub-batch is processed —
the list has one entry per request, the entry at position `p` is a success
exactly when request `p` passed validation, and it carries the `chat_id` the
validation pass recorded for position `p`. -/
theorem claim1_order_and_pattern (engine : List String → Except String (List String))
    (qs : List ChatRequest) (rs : List Entry)
    (hlen : ∀ ps outs, engine ps = .ok outs → outs.length = ps.length)
    (hok : generate_batch engine qs = .ok rs) :
    rs.length = qs.length ∧
      ∀ (p : Nat) (hp : p < qs.length),
        ∃ e, rs[p]? = some e ∧
          e.isSuccess = isValid qs[p] ∧
          e.chatId = (specEntry p qs[p]).chatId := by
  rcases generate_batch_ok_cases engine qs rs hok with ⟨hnil, rfl⟩ | ⟨outs, heng, hre⟩
  · refine ⟨specResponses_length qs 0, fun p hp => ?_⟩
    have hinv : isValid qs[p] = false :=
      (validPrompts_eq_nil_iff qs).mp hnil qs[p] (List.getElem_mem hp)
    have hget := specResponses_getElem qs 0 p hp
    rw [Nat.zero_add] at hget
    exact ⟨specEntry p qs[p], hget,
      by rw [hinv, (specEntry_invalid hinv p).2.1], rfl⟩
  · have houts : outs.length = (qs.filter isValid).length := by
      rw [hlen _ _ heng, validPrompts_length]
    rw [reassemble_specFinal qs 0 outs houts] at hre
    cases hre
    refine ⟨specFinal_length qs 0 outs houts, fun p hp => ?_⟩
    obtain ⟨e, he, hs, hc, _⟩ := specFinal_getElem qs 0 outs p houts hp
    exact ⟨e, he, hs, by simpa using hc⟩

/-- Witness for C1 at an interleaved invalid/valid input. -/
theorem claim1_order_and_pattern_witness :
    ([Entry.error "query_0" "chat_id is required and cannot be empty",
      Entry.response "b" "out:\nok"] : List Entry).length =
      ([⟨"", none, "hi"⟩, ⟨"b", none, "ok"⟩] : List ChatRequest).length :=
  (claim1_order_and_pattern echoEngine [⟨"", none, "hi"⟩, ⟨"b", none, "ok"⟩]
    [.error "query_0" "chat_id is required and cannot be empty",
     .response "b" "out:\nok"]
    (fun ps outs h => by cases h; simp) rfl).1

/-- **C2**: whenever the batch operation returns a 200 result list for a
non-empty input, the list has exactly one entry per input request. -/
theorem claim2_batch_length (engine : List String → Except String (List String))
    (qs : List ChatRequest) (rs : List Entry)
    (_hne : qs ≠ []) (hok : generate_batch engine qs = .ok rs) :
    rs.length = qs.length := by
  rcases generate_batch_ok_cases engine qs rs hok with ⟨_, rfl⟩ | ⟨outs, _, hre⟩
  · exact specResponses_length qs 0
  · rw [reassemble_length outs _ _ rs hre, specResponses_length]

/-- Witness for C2. -/
theorem claim2_batch_length_witness :
    ([⟨"b", none, "hi"⟩] : List ChatRequest) ≠ [] ∧
    ([Entry.response "b" "out:\nhi"] : List Entry).length =
      ([⟨"b", none, "hi"⟩] : List ChatRequest).length :=
  ⟨by simp, claim2_batch_length echoEngine [⟨"b", none, "hi"⟩]
    [.response "b" "out:\nhi"] (by simp) rfl⟩

/-- **C3**: the prompt list handed to the engine consists exactly of the
`PromptText`s of the valid requests (so an invalid request is never in it), an
invalid request's position already holds its error entry after the validation
pass, and on an all-invalid list the engine is never invoked (empty invocation
trace) while the call still returns a list of error results only. -/
theorem claim3_invalid_never_reaches_engine :
    (∀ qs : List ChatRequest,
        (firstPass qs).valid_prompts = (qs.filter isValid).map promptText) ∧
    (∀ (qs : List ChatRequest) (p : Nat) (hp : p < qs.length),
        isValid qs[p] = false →
          ((firstPass qs).responses)[p]? = some (specEntry p qs[p]) ∧
          (specEntry p qs[p]).isError = true) ∧
    (∀ (engine : List String → Except String (List String)) (qs : List ChatRequest),
        qs ≠ [] → (∀ q ∈ qs, isValid q = false) →
          (generate_batch_run engine qs).2 = [] ∧
          ∃ rs, generate_batch engine qs = .ok rs ∧ ∀ r ∈ rs, r.isError = true) := by
  refine ⟨fun qs => by rw [firstPass_eq]; rfl, fun qs p hp hinv => ?_,
    fun engine qs hne hall => ?_⟩
  · rw [firstPass_eq]
    have hget := specResponses_getElem qs 0 p hp
    rw [Nat.zero_add] at hget
    exact ⟨hget, (specEntry_invalid hinv p).1⟩
  · have hvp : validPrompts qs = [] := (validPrompts_eq_nil_iff qs).mpr hall
    have hq : qs.isEmpty = false := by simpa using hne
    constructor
    · rw [generate_batch_run_eq, if_neg (by simp [hq]), if_pos (by simp [hvp])]
    · refine ⟨specResponses 0 qs, ?_, specResponses_all_error qs 0 hall⟩
      rw [generate_batch, generate_batch_run_eq, if_neg (by simp [hq]),
        if_pos (by simp [hvp])]

/-- Witness for C3 on an all-invalid singleton list. -/
theorem claim3_invalid_never_reaches_engine_witness :
    ((firstPass [⟨"", none, "hi"⟩]).responses)[0]? =
      some (specEntry 0 ⟨"", none, "hi"⟩) ∧
    (generate_batch_run echoEngine [⟨"", none, "hi"⟩]).2 = [] ∧
    ∃ rs, generate_batch echoEngine [⟨"", none, "hi"⟩] = .ok rs ∧
      ∀ r ∈ rs, r.isError = true :=
  ⟨(claim3_invalid_never_reaches_engine.2.1 [⟨"", none, "hi"⟩] 0 (by decide)
      (by decide)).1,
   (claim3_invalid_never_reaches_engine.2.2 echoEngine [⟨"", none, "hi"⟩]
      (by simp) (by decide)).1,
   (claim3_invalid_never_reaches_engine.2.2 echoEngine [⟨"", none, "hi"⟩]
      (by simp) (by decide)).2⟩

/-- **C4**: after the validation pass, position `p` holds exactly the specified
entry: the missing-chat_id error (with the original `chat_id` when non-empty,
otherwise the placeholder `"query_<p>"`) when `chat_id` is blank after
trimming; else the missing-user_prompt error carrying the `chat_id` when
`user_prompt` is blank after trimming; else a placeholder for a valid item. -/
theorem claim4_validation_error_results (qs : List ChatRequest) (p : Nat)
    (hp : p < qs.length) :
    ((firstPass qs).responses)[p]? = some (
      if pyBlank qs[p].chat_id then
        .error (if qs[p].chat_id = "" then "query_" ++ toString p else qs[p].chat_id)
          "chat_id is required and cannot be empty"
      else if pyBlank qs[p].user_prompt then
        .error qs[p].chat_id "user_prompt is required and cannot be empty"
      else
        .placeholder qs[p].chat_id) := by
  rw [firstPass_eq]
  have hget := specResponses_getElem qs 0 p hp
  rw [Nat.zero_add] at hget
  simpa [specEntry] using hget

/-- Witness for C4: blank user_prompt at position 1. -/
theorem claim4_validation_error_results_witness :
    ((firstPass [⟨"", none, "hi"⟩, ⟨"b", none, " "⟩]).responses)[1]? =
      some (.error "b" "user_prompt is required and cannot be empty") :=
  claim4_validation_error_results [⟨"", none, "hi"⟩, ⟨"b", none, " "⟩] 1 (by decide)

/-- **C5**: when at least one request is valid, the engine is invoked exactly
once — the invocation trace is the one-element list holding the ordered
`PromptText`s of the valid requests — and that prompt list's length is the
number of valid requests. -/
theorem claim5_one_engine_call (engine : List String → Except String (List String))
    (qs : List ChatRequest) (hsome : ∃ q ∈ qs, isValid q = true) :
    (generate_batch_run engine qs).2 = [(qs.filter isValid).map promptText] ∧
    ((qs.filter isValid).map promptText).length = (qs.filter isValid).length := by
  obtain ⟨q, hq, hv⟩ := hsome
  have hne : qs.isEmpty = false := by
    cases qs
    · simp at hq
    · rfl
  have hvp : validPrompts qs ≠ [] := by
    intro h
    rw [validPrompts_eq_nil_iff] at h
    rw [h q hq] at hv
    cases hv
  rw [generate_batch_run_eq, if_neg (by simp [hne]), if_neg (by simpa using hvp)]
  cases heng : engine (validPrompts qs) with
  | error msg => simp [validPrompts]
  | ok outs =>
    cases hre : reassemble (specResponses 0 qs) (specIndices 0 qs) outs <;>
      simp [hre, validPrompts]

/-- Witness for C5. -/
theorem claim5_one_engine_call_witness :
    (generate_batch_run echoEngine [⟨"b", none, "hi"⟩]).2 = [["\nhi"]] ∧
    ((([⟨"b", none, "hi"⟩] : List ChatRequest).filter isValid).map promptText).length =
      (([⟨"b", none, "hi"⟩] : List ChatRequest).filter isValid).length :=
  claim5_one_engine_call echoEngine [⟨"b", none, "hi"⟩]
    ⟨⟨"b", none, "hi"⟩, by simp, by decide⟩

/-- **C6** (code bug): an empty top-level queries list does NOT fail with a
400 — the `HTTPException(400, ...)` raised inside the `try` block is caught by
the blanket `except Exception` and re-raised as a 500 whose detail is the
string rendering of the original 400 exception. The call does fail as a whole
(no 200 with an empty responses array), but with status 500. -/
theorem claim6_empty_queries_yields_500
    (engine : List String → Except String (List String)) :
    generate_batch engine [] =
      .err 500 "400: queries array required and must be non-empty" := rfl

/-- **C7** (counterexample): `/chat` does NOT apply the batch path's trim-based
validation — a whitespace-only `user_prompt`, invalid for the batch path,
passes `/chat`'s truthiness check and yields a success — and an actual
validation failure surfaces as a 500, not a 400, because the raised
`HTTPException(400, ...)` is swallowed by the blanket `except` handler. -/
theorem claim7_chat_validation_counterexample :
    isValid ⟨"a", some "", " "⟩ = false ∧
    chat (fun _ => .ok "out") ⟨"a", some "", " "⟩ = .ok "a" "out" ∧
    chat (fun _ => .ok "out") ⟨"", some "", "hi"⟩ =
      .err 500 "400: chat_id and user_prompt are required" :=
  ⟨by decide, rfl, rfl⟩

/-- **C7** (amended): the single-chat operation validates only that `chat_id`
and `user_prompt` are non-empty strings (truthiness, no trimming, so
whitespace-only values pass); a failure of that check aborts the whole call —
surfaced as a 500 because the internal 400 is re-raised by the catch-all —
without invoking the engine, so no partial result is produced; when both
fields are non-empty the engine is invoked on the request's PromptText. -/
theorem claim7_chat_validation_amended (engine : String → Except String String)
    (req : ChatRequest) :
    ((req.chat_id = "" ∨ req.user_prompt = "") →
        chat engine req = .err 500 "400: chat_id and user_prompt are required" ∧
        (chat_run engine req).2 = []) ∧
    (req.chat_id ≠ "" → req.user_prompt ≠ "" →
        (chat_run engine req).2 = [promptText req]) := by
  constructor
  · intro h
    constructor
    · rw [chat, chat_run, if_pos h]
      rfl
    · rw [chat_run, if_pos h]
  · intro h1 h2
    rw [chat_run_trace_eq engine req h1 h2]
    rfl

/-- Witness for the amended C7. -/
theorem claim7_chat_validation_amended_witness :
    (chat (fun _ => Except.ok "out") ⟨"", none, "hi"⟩ =
        .err 500 "400: chat_id and user_prompt are required" ∧
      (chat_run (fun _ => Except.ok "out") ⟨"", none, "hi"⟩).2 = []) ∧
    (chat_run (fun _ => Except.ok "out") ⟨"a", none, "hi"⟩).2 = ["\nhi"] :=
  ⟨(claim7_chat_validation_amended _ _).1 (Or.inl rfl),
   (claim7_chat_validation_amended _ _).2 (by decide) (by decide)⟩

/-- **C8**: when the engine fails on the batch call, the whole call fails with
a single 500 carrying the exception's message — no 200 response and hence no
partial or per-item-downgraded result list is returned. -/
theorem claim8_engine_failure_aborts (engine : List String → Except String (List String))
    (qs : List ChatRequest) (msg : String)
    (hvp : validPrompts qs ≠ [])
    (hfail : engine (validPrompts qs) = .error msg) :
    generate_batch engine qs = .err 500 msg := by
  have hne : qs.isEmpty = false := by
    cases qs
    · simp [validPrompts] at hvp
    · rfl
  rw [generate_batch, generate_batch_run_eq, if_neg (by simp [hne]),
    if_neg (by simpa using hvp), hfail]
  rfl

/-- Witness for C8. -/
theorem claim8_engine_failure_aborts_witness :
    validPrompts [⟨"b", none, "hi"⟩] ≠ [] ∧
    generate_batch (fun _ => .error "boom") [⟨"b", none, "hi"⟩] =
      .err 500 "boom" :=
  ⟨by decide, claim8_engine_failure_aborts _ [⟨"b", none, "hi"⟩] "boom"
    (by decide) rfl⟩

/-- **C9**: in both paths the prompt handed to the engine for a request that
passes the respective validation is the system prompt (empty string when
absent) concatenated with a newline and the user prompt. -/
theorem claim9_prompt_concatenation :
    (∀ qs : List ChatRequest,
        (firstPass qs).valid_prompts =
          (qs.filter isValid).map
            (fun q => q.system_prompt.getD "" ++ "\n" ++ q.user_prompt)) ∧
    (∀ (engine : String → Except String String) (req : ChatRequest),
        req.chat_id ≠ "" → req.user_prompt ≠ "" →
          (chat_run engine req).2 =
            [req.system_prompt.getD "" ++ "\n" ++ req.user_prompt]) := by
  constructor
  · intro qs
    rw [firstPass_eq]
    simp [validPrompts, promptText, pyOr_eq_getD]
  · intro engine req h1 h2
    rw [chat_run_trace_eq engine req h1 h2, pyOr_eq_getD]

/-- Witness for C9. -/
theorem claim9_prompt_concatenation_witness :
    (chat_run (fun p => Except.ok p) ⟨"a", some "sys", "hi"⟩).2 = ["sys\nhi"] :=
  claim9_prompt_concatenation.2 (fun p => Except.ok p) ⟨"a", some "sys", "hi"⟩
    (by decide) (by decide)

/-- **C10**: under the engine contract of one output per submitted prompt,
every entry of a 200 result list carries one of the `error`/`response` shapes
— in particular no temporary placeholder entry written during the validation
pass survives reassembly. -/
theorem claim10_no_placeholder_survives
    (engine : List String → Except String (List String))
    (qs : List ChatRequest) (rs : List Entry)
    (hlen : ∀ ps outs, engine ps = .ok outs → outs.length = ps.length)
    (hok : generate_batch engine qs = .ok rs) :
    ∀ r ∈ rs, r.isPlaceholder = false ∧ (r.isError = true ∨ r.isSuccess = true) := by
  rcases generate_batch_ok_cases engine qs rs hok with ⟨hnil, rfl⟩ | ⟨outs, heng, hre⟩
  · intro r hr
    have herr := specResponses_all_error qs 0 ((validPrompts_eq_nil_iff qs).mp hnil) r hr
    exact ⟨Entry.isPlaceholder_eq_false_of_isError herr, Or.inl herr⟩
  · have houts : outs.length = (qs.filter isValid).length := by
      rw [hlen _ _ heng, validPrompts_length]
    rw [reassemble_specFinal qs 0 outs houts] at hre
    cases hre
    exact specFinal_entries qs 0 outs houts

/-- Witness for C10. -/
theorem claim10_no_placeholder_survives_witness :
    (Entry.response "b" "out:\nok").isPlaceholder = false ∧
    ((Entry.response "b" "out:\nok").isError = true ∨
      (Entry.response "b" "out:\nok").isSuccess = true) :=
  claim10_no_placeholder_survives echoEngine [⟨"", none, "hi"⟩, ⟨"b", none, "ok"⟩]
    [.error "query_0" "chat_id is required and cannot be empty",
     .response "b" "out:\nok"]
    (fun ps outs h => by cases h; simp) rfl
    (.response "b" "out:\nok") (by simp)

end LlmQnaApi
